import Mathlib

/-!
Verification of the PANOC inner solver (`src/src/panoc.cpp`, namespace `pa`).

Embedding conventions:

* `real_t` (IEEE double) is modelled by exact rational arithmetic `ℚ`.
  Rounding and overflow are not modelled, so a non-finite value (NaN/Inf)
  can arise only from a division whose denominator is exactly zero; the one
  place the solver can genuinely divide by zero — the finite-difference
  Lipschitz quotient `‖∇ψ(x+h)−∇ψ(x)‖/‖h‖` with `h = 0` — is made explicit
  with an `Option`/sum type.  Where the control flow branches on a value
  that the C++ code could see as non-finite (the stopping residual `εₖ`),
  the embedded branch takes an `Option ℚ` so that the classification logic
  is stated, as in the source, for non-finite inputs as well.
* Eigen vectors are `List ℚ`; all call sites use consistently sized lists.
* `vec::norm()` is `sqrt (squaredNorm v)`.  An exact square root does not
  exist inside `ℚ`, so the square-root function `sq : ℚ → ℚ` is a parameter
  of the development; every theorem below holds for an arbitrary `sq`.
  Norm quotients are flagged non-finite exactly when the squared norm of
  the denominator vector is zero (in exact arithmetic `h = 0` also forces
  `∇ψ(x+h) − ∇ψ(x) = 0`, i.e. the NaN case `0/0` of the source).
* Identifiers follow the source where Lean's lexer allows; `x̂`, `ŷ`, `ẑ`
  become `xhat`, `yhat`, `zhat`, the penalty vector `Σ` becomes `Sig`,
  subscripts `ₖ₊₁` become a prime.
* Output streams (`print_interval` progress printing, the inf/NaN dump)
  are not modelled: they do not touch the solver state.
-/

namespace pa

/-- Dense real vector (`pa::vec`), with exact rational entries. -/
abbrev vec := List ℚ

/-- Componentwise sum of two vectors. -/
def vadd (a b : vec) : vec := List.zipWith (· + ·) a b

/-- Componentwise difference of two vectors. -/
def vsub (a b : vec) : vec := List.zipWith (· - ·) a b

/-- Componentwise product of two vectors (`Σ.asDiagonal() * d`). -/
def vmul (a b : vec) : vec := List.zipWith (· * ·) a b

/-- Componentwise quotient of two vectors (`y.array() / Σ.array()`). -/
def vdiv (a b : vec) : vec := List.zipWith (· / ·) a b

/-- Scalar multiple of a vector. -/
def smul (c : ℚ) (a : vec) : vec := a.map (fun v => c * v)

/-- Dot product of two vectors. -/
def dot (a b : vec) : ℚ := (List.zipWith (· * ·) a b).sum

/-- Squared Euclidean norm (`v.squaredNorm()`). -/
def squaredNorm (a : vec) : ℚ := dot a a

/-- Infinity norm (`vec_util::norm_inf`): the largest absolute entry. -/
def norm_inf (a : vec) : ℚ := (a.map (fun v => |v|)).foldr max 0

/-- Euclidean norm `v.norm() = sqrt(v.squaredNorm())`; `sq` is the
square-root parameter of the development (see the header). -/
def norm2 (sq : ℚ → ℚ) (a : vec) : ℚ := sq (squaredNorm a)

/-- Ternary zip, for the fused clamp of `calc_x̂`. -/
def zipWith3 (f : ℚ → ℚ → ℚ → ℚ) : vec → vec → vec → vec
  | a :: as, b :: bs, c :: cs => f a b c :: zipWith3 f as bs cs
  | _, _, _ => []

/-- Machine epsilon of `real_t = double`:
`std::numeric_limits<double>::epsilon() = 2⁻⁵²`. -/
def machineEps : ℚ := 1 / 2 ^ 52

/-- Box constraint set (`pa::Box`): `[lowerbound, upperbound]` componentwise.
The embedding keeps the bounds finite rationals (no claim involves an
infinite bound). -/
structure Box where
  lowerbound : vec
  upperbound : vec

/-- Componentwise projection onto a box (`pa::project`). -/
def project (v : vec) (b : Box) : vec :=
  zipWith3 (fun vi lo hi => min (max vi lo) hi) v b.lowerbound b.upperbound

/-- Projecting difference `v − Π(v, D)` (`pa::projecting_difference`). -/
def projecting_difference (v : vec) (b : Box) : vec := vsub v (project v b)

/-- Problem description (`pa::Problem`): dimensions, the sets `C` and `D`,
and the caller-supplied oracles.  The oracles of the source write through
output references; here they are pure functions.  `grad_g x v` is the
transpose-Jacobian product `(∇g(x))ᵀ v` of length `n`. -/
structure Problem where
  n : ℕ
  m : ℕ
  C : Box
  D : Box
  f : vec → ℚ
  grad_f : vec → vec
  g : vec → vec
  grad_g : vec → vec → vec

/-- Termination status (`pa::SolverStatus`).  The header `solverstatus.hpp`
is not among the sources; the five outcome values follow the spec's status
enum, and `Unknown` stands for the default-constructed value a `Stats`
object holds before the solver classifies termination. -/
inductive SolverStatus where
  | Unknown
  | Converged
  | MaxIter
  | MaxTime
  | NotFinite
  | Interrupted
deriving DecidableEq

/-- Solver statistics (`PANOCSolver::Stats`).  The struct declaration is not
among the sources; fields follow the spec's `Stats` list.  `ε` and
`elapsed_time` are `Option`s: `none` models the default-constructed value
(never written), and a written `ε` carries the residual when it is finite
(`some`) or marks it non-finite (`none`, only reachable through the
non-finite classification branch). -/
structure Stats where
  status : SolverStatus := .Unknown
  ε : Option ℚ := none
  elapsed_time : Option ℚ := none
  iterations : ℕ := 0
  linesearch_failures : ℕ := 0
  lbfgs_failures : ℕ := 0
  lbfgs_rejected : ℕ := 0
deriving DecidableEq

/-- Final contents of the caller's buffers after `PANOCSolver::operator()`:
the in/out decision variable `x`, the outputs `z`, `err_z`, the in/out
multiplier `y`, and the returned `Stats`. -/
structure SolveResult where
  x : vec
  z : vec
  y : vec
  err_z : vec
  stats : Stats
deriving DecidableEq

/-- Floating-point comparison `εₖ ≤ ε` of the source, where the left side
may be non-finite: a NaN compares false against everything and the solver's
residual is a norm (never `−∞`), so a non-finite left side yields `false`. -/
def fple (a : Option ℚ) (b : ℚ) : Bool :=
  match a with
  | some q => decide (q ≤ b)
  | none => false

/-- Model of `std::isfinite` on the possibly-non-finite residual. -/
def isFiniteQ (a : Option ℚ) : Bool := a.isSome

/-- Calculate both `ψ(x)` and the vector `ŷ` that can later be used to
compute `∇ψ` (`pa::detail::calc_ψ_ŷ`):
`g(x)`, then `ζ = g(x) + Σ⁻¹y`, then `d = ζ − Π(ζ, D)`, then
`dᵀŷ = Σᵢ dᵢ Σᵢᵢ dᵢ` and `ŷ = Σ d`, returning `ψ = f(x) + ½ dᵀŷ`. -/
def calc_ψ_yhat (p : Problem) (x y Sig : vec) : ℚ × vec :=
  let gx := p.g x
  let ζ := vadd gx (vdiv y Sig)
  let d := projecting_difference ζ p.D
  let dty := (zipWith3 (fun di σi _ => di * σi * di) d Sig d).sum
  let yh := vmul Sig d
  (p.f x + 1 / 2 * dty, yh)

/-- Calculate `∇ψ(x)` using a cached `ŷ`
(`pa::detail::calc_grad_ψ_from_ŷ`): `∇ψ = ∇f(x) + ∇g(x) ŷ`. -/
def calc_grad_ψ_from_yhat (p : Problem) (x yh : vec) : vec :=
  vadd (p.grad_f x) (p.grad_g x yh)

/-- Calculate both `ψ(x)` and its gradient `∇ψ(x)`
(`pa::detail::calc_ψ_grad_ψ`). -/
def calc_ψ_grad_ψ (p : Problem) (x y Sig : vec) : ℚ × vec :=
  let ψy := calc_ψ_yhat p x y Sig
  (ψy.1, calc_grad_ψ_from_yhat p x ψy.2)

/-- Calculate the gradient `∇ψ(x)` (`pa::detail::calc_grad_ψ`):
`g(x)`, `ζ = g(x) + Σ⁻¹y`, `d = ζ − Π(ζ, D)`, `ŷ = Σ d`,
`∇ψ = ∇f(x) + ∇g(x) ŷ`. -/
def calc_grad_ψ (p : Problem) (x y Sig : vec) : vec :=
  let gx := p.g x
  let ζ := vadd gx (vdiv y Sig)
  let d := projecting_difference ζ p.D
  let yh := vmul Sig d
  vadd (p.grad_f x) (p.grad_g x yh)

/-- Calculate `ẑ = Π_D(g(x̂) + Σ⁻¹y)` and the slack error `g(x̂) − ẑ`
(`pa::detail::calc_ẑ`). -/
def calc_zhat (p : Problem) (xhat y Sig : vec) : vec × vec :=
  let gx := p.g xhat
  let ζ := vadd gx (vdiv y Sig)
  let zh := project ζ p.D
  (zh, vsub gx zh)

/-- Projected gradient step (`pa::detail::calc_x̂`), in the mandated
cancellation-free form: componentwise
`pᵢ = fmin(fmax(−γ·∇ψᵢ, lᵢ − xᵢ), uᵢ − xᵢ)` and `x̂ = x + p`.
The source also returns a progress flag `‖p‖/‖x‖ > ε_mach` that every call
site of this translation unit discards; it is not modelled. -/
def calc_xhat (prob : Problem) (γ : ℚ) (x grad_ψ : vec) : vec × vec :=
  let p := zipWith3 (fun mg lo hi => min (max mg lo) hi)
      (smul (-γ) grad_ψ) (vsub prob.C.lowerbound x) (vsub prob.C.upperbound x)
  (vadd x p, p)

/-- Stopping residual (`pa::detail::calc_error_stop_crit`):
`εₖ = ‖(1/γ)·pₖ + (∇ψ(x̂ₖ) − ∇ψ(xₖ))‖∞`, with the scaled step and the
gradient difference each formed before the sum (the source's mandated
parenthesization; in exact arithmetic all groupings agree). -/
def calc_error_stop_crit (pₖ : vec) (γ : ℚ) (grad_ψhatₖ grad_ψₖ : vec) : ℚ :=
  norm_inf (vadd (smul (1 / γ) pₖ) (vsub grad_ψhatₖ grad_ψₖ))

/-- Modelled from the spec: `lbfgs.hpp` (the `pa::LBFGS` ring buffer) is not
among the sources.  Following §4.3, the buffer keeps up to `mem` secant
pairs `(s, y, ρ = 1/⟨s,y⟩)`, newest first. -/
structure LBFGS where
  mem : ℕ
  pairs : List (vec × vec × ℚ)

/-- Modelled from the spec: flushing the buffer empties the pair list. -/
def LBFGS.reset (lb : LBFGS) : LBFGS := { lb with pairs := [] }

/-- Modelled from the spec (§4.3): reject the pair when
`⟨s,y⟩ ≤ ε_mach · ‖y‖ · ‖s‖`, otherwise push `(s, y, 1/⟨s,y⟩)` evicting the
oldest at capacity.  The rejection test is written in the squared,
`ℚ`-expressible form `⟨s,y⟩ ≤ 0 ∨ ⟨s,y⟩² ≤ ε_mach²·‖y‖²·‖s‖²`, which agrees
with the spec's inequality in exact arithmetic; the spec's non-finiteness
rejection cannot trigger in the exact model.  Returns the new buffer and
whether the pair was stored. -/
def LBFGS.update (lb : LBFGS) (s y : vec) : LBFGS × Bool :=
  let sy := dot s y
  if sy ≤ 0 ∨ sy ^ 2 ≤ machineEps ^ 2 * squaredNorm y * squaredNorm s then
    (lb, false)
  else
    ({ lb with pairs := ((s, y, 1 / sy) :: lb.pairs).take lb.mem }, true)

/-- Modelled from the spec (§4.3): the two-loop recursion.  Newest-to-oldest
compute `αᵢ = ρᵢ⟨sᵢ,q⟩` and `q ← q − αᵢyᵢ`; scale by `⟨sₙ,yₙ⟩/⟨yₙ,yₙ⟩` of
the newest pair; oldest-to-newest compute `βᵢ = ρᵢ⟨yᵢ,q⟩` and
`q ← q + (αᵢ − βᵢ)sᵢ`.  An empty buffer leaves `q` unchanged. -/
def LBFGS.apply (lb : LBFGS) (q : vec) : vec :=
  match lb.pairs with
  | [] => q
  | (sN, yN, _) :: _ =>
    let fwd := lb.pairs.foldl
      (fun (acc : vec × List ℚ) pair =>
        let α := pair.2.2 * dot pair.1 acc.1
        (vsub acc.1 (smul α pair.2.1), acc.2 ++ [α]))
      (q, [])
    let q1 := smul (dot sN yN / dot yN yN) fwd.1
    ((lb.pairs.zip fwd.2).reverse).foldl
      (fun qacc pairα =>
        let β := pairα.1.2.2 * dot pairα.1.2.1 qacc
        vadd qacc (smul (pairα.2 - β) pairα.1.1))
      q1

/-- Modelled from the spec: the `pa::SpecializedLBFGS` variant
(`lbfgs.hpp`, not among the sources).  It keeps the same ring buffer plus
the last seen `(x, ∇ψ(x), x̂, γ)`, from which its secant pairs are derived
(§4.3: s and y come from `(xₖ₊₁, ∇ψ(xₖ₊₁), x̂ₖ₊₁, γₖ₊₁, C)`); it survives
γ changes.  No claim depends on its numeric behaviour. -/
structure SpecializedLBFGS where
  buf : LBFGS
  x : vec
  grad : vec
  xhat : vec
  γ : ℚ

/-- Modelled from the spec: store the first point's data (line 281 of
`panoc.cpp` calls this at `k = 0`). -/
def SpecializedLBFGS.initialize (slb : SpecializedLBFGS) (x grad xhat : vec)
    (γ : ℚ) : SpecializedLBFGS :=
  { slb with x := x, grad := grad, xhat := xhat, γ := γ }

/-- Modelled from the spec: the two-loop recursion on the shared buffer. -/
def SpecializedLBFGS.apply (slb : SpecializedLBFGS) (q : vec) : vec :=
  slb.buf.apply q

/-- Modelled from the spec: flush the buffer. -/
def SpecializedLBFGS.reset (slb : SpecializedLBFGS) : SpecializedLBFGS :=
  { slb with buf := slb.buf.reset }

/-- Modelled from the spec: form `s = xₖ₊₁ − xₖ` and
`y = pₖ − pₖ₊₁` from the stored and the new projected quantities, push with
the usual curvature test, and remember the new point. -/
def SpecializedLBFGS.update (slb : SpecializedLBFGS) (x' grad' xhat' : vec)
    (C : Box) (γ' : ℚ) : SpecializedLBFGS × Bool :=
  let s := vsub x' slb.x
  let pPrev := vsub slb.xhat slb.x
  let pNew := vsub xhat' x'
  let y := vsub pPrev pNew
  let ub := slb.buf.update s y
  ({ buf := ub.1, x := x', grad := grad', xhat := xhat', γ := γ' }, ub.2)

/-- Lipschitz-estimation parameters (`PANOCParams::Lipschitz`). -/
structure LipschitzParams where
  ε : ℚ
  δ : ℚ
  Lγ_factor : ℚ

/-- Solver parameters (`pa::PANOCParams`).  `max_time` is a duration in the
same abstract unit as the `elapsedAt` clock handed to the solver;
`print_interval` only controls output and is not modelled. -/
structure PANOCParams where
  Lipschitz : LipschitzParams
  lbfgs_mem : ℕ
  specialized_lbfgs : Bool
  update_lipschitz_in_linesearch : Bool
  max_iter : ℕ
  max_time : ℚ
  τ_min : ℚ

/-- Scalar update of one pass of a quadratic-upper-bound shrink loop
(lines 258–260 of `panoc.cpp`): `Lₖ *= 2; σₖ /= 2; γₖ /= 2`. -/
def shrinkScalars : ℚ × ℚ × ℚ → ℚ × ℚ × ℚ
  | (L, σ, γ) => (2 * L, σ / 2, γ / 2)

/-- Working state shared by the two quadratic-upper-bound shrink loops:
the scalars `(Lₖ, σₖ, γₖ)`, the step data `(x̂ₖ, pₖ)`, the cached values
`ψ̂ₖ = ψ(x̂ₖ)`, `ŷ(x̂ₖ)`, `∇ψₖᵀpₖ`, `‖pₖ‖²`, and the non-specialized
L-BFGS buffer the loop may flush. -/
structure ShrinkState where
  L : ℚ
  σ : ℚ
  γ : ℚ
  xhat : vec
  p : vec
  ψhat : ℚ
  yhat : vec
  gradp : ℚ
  nsq : ℚ
  lb : LBFGS

/-- Body of one pass of the shrink loop (lines 258–275 / 434–449 of
`panoc.cpp`): double `L`, halve `σ` and `γ`, flush the non-specialized
L-BFGS buffer when `doReset`, recompute `(x̂, p)` with the new step size,
then `∇ψᵀp`, `‖p‖²`, and `ψ̂`, `ŷ`. -/
def shrinkPass (prob : Problem) (y Sig x grad : vec) (doReset : Bool)
    (s : ShrinkState) : ShrinkState :=
  let sc := shrinkScalars (s.L, s.σ, s.γ)
  let lb := if doReset then s.lb.reset else s.lb
  let xp := calc_xhat prob sc.2.2 x grad
  let gradp := dot grad xp.2
  let nsq := squaredNorm xp.2
  let ψy := calc_ψ_yhat prob xp.1 y Sig
  { L := sc.1, σ := sc.2.1, γ := sc.2.2, xhat := xp.1, p := xp.2,
    ψhat := ψy.1, yhat := ψy.2, gradp := gradp, nsq := nsq, lb := lb }

/-- Quadratic-upper-bound shrink loop
(`while (ψ̂ₖ > ψₖ + margin + ∇ψₖᵀpₖ + ½Lₖ‖pₖ‖²) …`, lines 257–276 and
432–450 of `panoc.cpp`).  The C++ loop is unbounded; `fuel` bounds the
embedding, and `none` stands for a run that does not exit within `fuel`
passes (both call sites' claims are conditional on the loop exiting). -/
def shrinkLoop (prob : Problem) (y Sig x grad : vec) (ψ margin : ℚ)
    (doReset : Bool) : ℕ → ShrinkState → Option ShrinkState
  | fuel, s =>
    if s.ψhat > ψ + margin + s.gradp + 1 / 2 * s.L * s.nsq then
      match fuel with
      | 0 => none
      | fuel + 1 =>
        shrinkLoop prob y Sig x grad ψ margin doReset fuel
          (shrinkPass prob y Sig x grad doReset s)
    else some s

/-- Per-iteration solver state (the `xₖ`-indexed locals of
`PANOCSolver::operator()`): `x = xₖ`, `xhat = x̂ₖ`, `yhat = ŷ(x̂ₖ)`,
`p = pₖ`, `grad = ∇ψ(xₖ)`, the scalars `L = Lₖ`, `σ = σₖ`, `γ = γₖ`,
`ψ = ψₖ`, `ψhat = ψ(x̂ₖ)`, `φ = φₖ`, and the caches `gradp = ∇ψₖᵀpₖ`,
`nsq = ‖pₖ‖²`. -/
structure IterState where
  x : vec
  xhat : vec
  yhat : vec
  p : vec
  grad : vec
  L : ℚ
  σ : ℚ
  γ : ℚ
  ψ : ℚ
  ψhat : ℚ
  φ : ℚ
  gradp : ℚ
  nsq : ℚ

/-- View of the iteration state with a buffer, as the shrink loop takes it. -/
def IterState.toShrink (st : IterState) (lb : LBFGS) : ShrinkState :=
  { L := st.L, σ := st.σ, γ := st.γ, xhat := st.xhat, p := st.p,
    ψhat := st.ψhat, yhat := st.yhat, gradp := st.gradp, nsq := st.nsq,
    lb := lb }

/-- Fold a shrink result back into the iteration state. -/
def IterState.ofShrink (st : IterState) (sh : ShrinkState) : IterState :=
  { st with
    L := sh.L, σ := sh.σ, γ := sh.γ, xhat := sh.xhat, p := sh.p,
    ψhat := sh.ψhat, yhat := sh.yhat, gradp := sh.gradp, nsq := sh.nsq }

/-- Termination check and exit block of one iteration (lines 301–379 of
`panoc.cpp`).  Inputs: the current state `st`, the iteration counter `k`,
the residual `εopt` (`some`: finite value; `none`: non-finite), the clock
reading `elapsed`, the polled stop flag `stop`, the accumulated counters
`s`, and the current contents of the caller's buffers: `xbuf` (as the
bootstrap left it, `x₀ + h`), `y` (the multiplier buffer, also an input),
`zbuf`, `errbuf` (the untouched output buffers).  Returns `some` final
buffers and statistics when the iteration terminates the solver, `none`
when the loop continues.

Branches, in source order:
1. `εₖ ≤ ε || k == max_iter || out_of_time`: write `(ẑ, err_z)` via
   `calc_ẑ(x̂ₖ)`, `x ← x̂ₖ`, `y ← ŷ(x̂ₖ)`, fill `Stats`, with status
   `Converged` / `MaxTime` / `MaxIter` in that ternary order;
2. `!isfinite(εₖ)`: fill `Stats` with status `NotFinite` and return —
   the caller's `x`, `y`, `z`, `err_z` keep their current contents;
3. stop signal set: as branch 1 but with status `Interrupted`. -/
def exitStep (prob : Problem) (params : PANOCParams) (y Sig : vec)
    (xbuf zbuf errbuf : vec) (ε : ℚ) (st : IterState) (k : ℕ)
    (εopt : Option ℚ) (elapsed : ℚ) (stop : Bool) (s : Stats) :
    Option SolveResult :=
  let out_of_time : Bool := decide (elapsed > params.max_time)
  if fple εopt ε || k == params.max_iter || out_of_time then
    let zerr := calc_zhat prob st.xhat y Sig
    some { x := st.xhat, z := zerr.1, y := st.yhat, err_z := zerr.2,
           stats := { s with
                      iterations := k, ε := εopt,
                      elapsed_time := some elapsed,
                      status := if fple εopt ε then .Converged
                                else if out_of_time then .MaxTime
                                else .MaxIter } }
  else if !isFiniteQ εopt then
    some { x := xbuf, z := zbuf, y := y, err_z := errbuf,
           stats := { s with
                      iterations := k, ε := εopt,
                      elapsed_time := some elapsed,
                      status := .NotFinite } }
  else if stop then
    let zerr := calc_zhat prob st.xhat y Sig
    some { x := st.xhat, z := zerr.1, y := st.yhat, err_z := zerr.2,
           stats := { s with
                      iterations := k, ε := εopt,
                      elapsed_time := some elapsed,
                      status := .Interrupted } }
  else none

/-- Result of the FBE line search (the `ₖ₊₁` locals of
`PANOCSolver::operator()` at acceptance): primes stand for subscript `ₖ₊₁`,
plus the final `τ` (after its last halving), the final `ls_cond`, and the
non-specialized L-BFGS buffer (possibly flushed by the in-search shrink). -/
structure LSResult where
  x' : vec
  xhat' : vec
  yhat' : vec
  p' : vec
  grad' : vec
  L' : ℚ
  σ' : ℚ
  γ' : ℚ
  ψ' : ℚ
  ψhat' : ℚ
  φ' : ℚ
  gradp' : ℚ
  nsq' : ℚ
  τ : ℚ
  ls_cond : ℚ
  lb : LBFGS

/-- FBE line search (the do-while loop, lines 403–459 of `panoc.cpp`).
Each pass: restart the candidate scalars from `(Lₖ, σₖ, γₖ)`; take the
safe prox step `xₖ₊₁ = x̂ₖ` when `τ/2 < τ_min`, otherwise
`xₖ₊₁ = xₖ + (1−τ)pₖ + τqₖ`; evaluate `ψₖ₊₁`, `∇ψₖ₊₁`, `(x̂ₖ₊₁, pₖ₊₁)`,
`ψ̂ₖ₊₁`, `ŷₖ₊₁`; when `update_lipschitz_in_linesearch`, run the
quadratic-upper-bound shrink (flushing the non-specialized buffer on each
pass); form `φₖ₊₁`; halve `τ`; exit when
`ls_cond = φₖ₊₁ − (φₖ − σₖ‖pₖ‖²/γₖ²) ≤ 0` or `τ < τ_min`.
`σnγp` is the precomputed `σₖ·‖pₖ‖²/γₖ²` of line 388.  The C++ loop is
unbounded; `fuel` bounds the embedding (`none`: no exit within `fuel`). -/
def lineSearch (prob : Problem) (params : PANOCParams) (y Sig : vec)
    (xₖ xhatₖ pₖ qₖ : vec) (Lₖ σₖ γₖ φₖ σnγp : ℚ) (shrinkFuel : ℕ) :
    ℕ → ℚ → LBFGS → Option LSResult
  | 0, _, _ => none
  | fuel + 1, τ, lb =>
    let x' := if τ / 2 < params.τ_min then xhatₖ
              else vadd (vadd xₖ (smul (1 - τ) pₖ)) (smul τ qₖ)
    let ψg := calc_ψ_grad_ψ prob x' y Sig
    let xp := calc_xhat prob γₖ x' ψg.2
    let ψy := calc_ψ_yhat prob xp.1 y Sig
    let margin : ℚ := 0
    let sh0 : ShrinkState :=
      { L := Lₖ, σ := σₖ, γ := γₖ, xhat := xp.1, p := xp.2, ψhat := ψy.1,
        yhat := ψy.2, gradp := dot ψg.2 xp.2, nsq := squaredNorm xp.2,
        lb := lb }
    let shres := if params.update_lipschitz_in_linesearch then
        shrinkLoop prob y Sig x' ψg.2 ψg.1 margin (!params.specialized_lbfgs)
          shrinkFuel sh0
      else some sh0
    match shres with
    | none => none
    | some sh =>
      let φ' := ψg.1 + 1 / (2 * sh.γ) * sh.nsq + sh.gradp
      let τ' := τ / 2
      let ls_cond := φ' - (φₖ - σnγp)
      if ls_cond > 0 ∧ τ' ≥ params.τ_min then
        lineSearch prob params y Sig xₖ xhatₖ pₖ qₖ Lₖ σₖ γₖ φₖ σnγp
          shrinkFuel fuel τ' sh.lb
      else
        some { x' := x', xhat' := sh.xhat, yhat' := sh.yhat, p' := sh.p,
               grad' := ψg.2, L' := sh.L, σ' := sh.σ, γ' := sh.γ,
               ψ' := ψg.1, ψhat' := sh.ψhat, φ' := φ', gradp' := sh.gradp,
               nsq' := sh.nsq, τ := τ', ls_cond := ls_cond, lb := sh.lb }

/-- Gate of the Step-A shrink loop (line 256 of `panoc.cpp`):
`k == 0 || update_lipschitz_in_linesearch == false`. -/
def stepACondition (params : PANOCParams) (k : ℕ) : Bool :=
  k == 0 || !params.update_lipschitz_in_linesearch

/-- Gate of the Step-A L-BFGS flush (line 263 of `panoc.cpp`):
`k > 0 && specialized_lbfgs == false`. -/
def stepAResetCondition (params : PANOCParams) (k : ℕ) : Bool :=
  decide (0 < k) && !params.specialized_lbfgs

/-- Line-search failure accounting (lines 461–464 of `panoc.cpp`):
increment `linesearch_failures` exactly when the final `τ < τ_min` and
`k ≠ 0`. -/
def linesearchFailureStep (params : PANOCParams) (k : ℕ) (τ : ℚ)
    (s : Stats) : Stats :=
  if τ < params.τ_min ∧ k ≠ 0 then
    { s with linesearch_failures := s.linesearch_failures + 1 }
  else s

/-- Main iteration loop of `PANOCSolver::operator()` (lines 254–488),
one recursive step per `k`.  The `for` loop runs `k = 0, …, max_iter` and
always exits through `exitStep` at `k = max_iter`; `fuel` (started at
`max_iter + 1`) realises that bound, with `none` standing for the
unreachable fall-through (`throw std::logic_error`) or an inner loop that
did not exit within its fuel.  `qprev` carries the `qₖ` buffer across
iterations (it is read at `k = 0` only through the factor `τ = 0`); in the
exact model `qₖ.hasNaN()` is always false, so the `lbfgs_failures` branch
(lines 397–401) cannot trigger.  `elapsedAt k` is the monotonic clock read
and `stopAt k` the relaxed atomic load of iteration `k`. -/
def loopGo (prob : Problem) (params : PANOCParams) (y Sig : vec)
    (xbuf zbuf errbuf : vec) (ε : ℚ) (elapsedAt : ℕ → ℚ)
    (stopAt : ℕ → Bool) (shrinkFuel lsFuel : ℕ) :
    ℕ → ℕ → IterState → LBFGS → SpecializedLBFGS → vec → Stats →
    Option SolveResult
  | 0, _, _, _, _, _, _ => none
  | fuel + 1, k, st0, lb0, slb0, qprev, s0 =>
    let aRes := if stepACondition params k then
        shrinkLoop prob y Sig st0.x st0.grad st0.ψ 0
          (stepAResetCondition params k) shrinkFuel (st0.toShrink lb0)
      else some (st0.toShrink lb0)
    match aRes with
    | none => none
    | some sh =>
      let st := st0.ofShrink sh
      let lb := sh.lb
      let slb := if params.specialized_lbfgs && k == 0 then
          slb0.initialize st.x st.grad st.xhat st.γ
        else slb0
      let grad_ψhatₖ := calc_grad_ψ_from_yhat prob st.xhat st.yhat
      let εₖ := calc_error_stop_crit st.p st.γ grad_ψhatₖ st.grad
      match exitStep prob params y Sig xbuf zbuf errbuf ε st k (some εₖ)
          (elapsedAt k) (stopAt k) s0 with
      | some r => some r
      | none =>
        let q := if 0 < k then
            (if params.specialized_lbfgs then slb.apply st.p else lb.apply st.p)
          else qprev
        let τ₀ : ℚ := if k = 0 then 0 else 1
        let σnγp := st.σ * st.nsq / (st.γ * st.γ)
        match lineSearch prob params y Sig st.x st.xhat st.p q st.L st.σ st.γ
            st.φ σnγp shrinkFuel lsFuel τ₀ lb with
        | none => none
        | some r =>
          let s1 := linesearchFailureStep params k r.τ s0
          let upd : LBFGS × SpecializedLBFGS × Bool :=
            if params.specialized_lbfgs then
              let ub := slb.update r.x' r.grad' r.xhat' prob.C r.γ'
              (r.lb, ub.1, !ub.2)
            else
              let ub := r.lb.update (vsub r.x' st.x) (vsub st.p r.p')
              (ub.1, slb, !ub.2)
          let s2 := { s1 with
            lbfgs_rejected := s1.lbfgs_rejected + (if upd.2.2 then 1 else 0) }
          let st' : IterState :=
            { x := r.x', xhat := r.xhat', yhat := r.yhat', p := r.p',
              grad := r.grad', L := r.L', σ := r.σ', γ := r.γ', ψ := r.ψ',
              ψhat := r.ψhat', φ := r.φ', gradp := r.gradp', nsq := r.nsq' }
          loopGo prob params y Sig xbuf zbuf errbuf ε elapsedAt stopAt
            shrinkFuel lsFuel fuel (k + 1) st' upd.1 upd.2.1 q s2

/-- Finite-difference perturbation of the Lipschitz bootstrap (line 214 of
`panoc.cpp`): `h = (x * ε).cwiseAbs().cwiseMax(δ)`, i.e.
`hᵢ = max(|ε·xᵢ|, δ)`. -/
def lipschitz_h (params : PANOCParams) (x : vec) : vec :=
  (smul params.Lipschitz.ε x).map (fun v => max |v| params.Lipschitz.δ)

/-- Initial step size `γ₀ = Lγ_factor / L₀` (line 235 of `panoc.cpp`). -/
def γ_init (Lγ_factor L : ℚ) : ℚ := Lγ_factor / L

/-- Sufficient-decrease coefficient `σ = γ(1 − γL)/2` (line 236 of
`panoc.cpp`). -/
def σ_init (γ L : ℚ) : ℚ := γ * (1 - γ * L) / 2

/-- Outcome of the Lipschitz bootstrap (lines 212–236 of `panoc.cpp`):
either the estimate was non-finite (carrying the perturbed contents
`x₀ + h` the caller's `x` buffer was left with), or the data needed to
start the main loop: the perturbed buffer, `ψ(x₀)`, `∇ψ(x₀)`, and the
scalars `L₀`, `γ₀`, `σ₀`. -/
inductive BootstrapOut where
  | notFinite (x1 : vec)
  | ok (x1 : vec) (ψ₀ : ℚ) (grad₀ : vec) (L γ σ : ℚ)

/-- Lipschitz bootstrap (lines 212–236 of `panoc.cpp`): perturb `x += h`,
evaluate `∇ψ(x₀+h)` and then `ψ(x₀), ∇ψ(x₀)`, estimate
`L₀ = ‖∇ψ(x₀+h) − ∇ψ(x₀)‖₂ / ‖h‖₂`, clamp it up to machine epsilon when
below, and fail with `NotFinite` when it is non-finite.  In exact
arithmetic the quotient is non-finite exactly when `‖h‖ = 0` (then also
`∇ψ(x₀+h) − ∇ψ(x₀) = 0`, the source's `0/0` NaN, for which both the
source's clamp test `Lₖ < ε_mach` and the embedded one are false, so the
clamp/finiteness order of the `if/else if` is preserved).  On success
`γ₀ = Lγ_factor/L₀` and `σ₀ = γ₀(1 − γ₀L₀)/2`. -/
def bootstrap (prob : Problem) (params : PANOCParams) (sq : ℚ → ℚ)
    (x y Sig : vec) : BootstrapOut :=
  let h := lipschitz_h params x
  let x1 := vadd x h
  let grad1 := calc_grad_ψ prob x1 y Sig
  let ψg := calc_ψ_grad_ψ prob x y Sig
  if squaredNorm h = 0 then .notFinite x1
  else
    let L0 := norm2 sq (vsub grad1 ψg.2) / norm2 sq h
    let L := if L0 < machineEps then machineEps else L0
    .ok x1 ψg.1 ψg.2 L (γ_init params.Lipschitz.Lγ_factor L)
      (σ_init (γ_init params.Lipschitz.Lγ_factor L) L)

/-- Modelled from the spec (§4.4.1), stated in the spec's own words for
comparison with the code's `bootstrap`: perturbation
`hᵢ = max(δ, ε·|xᵢ|)`, `∇ψ` at `x` and `x + h`,
`L₀ = ‖∇ψ(x+h) − ∇ψ(x)‖₂/‖h‖₂` (non-finite exactly when `‖h‖ = 0`), clamp
up to machine epsilon when below, NotFinite when non-finite,
`γ₀ = Lγ_factor/L₀` and `σ₀ = γ₀(1 − γ₀L₀)/2`. -/
def bootstrapSpec (prob : Problem) (params : PANOCParams) (sq : ℚ → ℚ)
    (x y Sig : vec) : BootstrapOut :=
  let h := x.map (fun v =>
    max params.Lipschitz.δ (params.Lipschitz.ε * |v|))
  let x1 := vadd x h
  let grad1 := calc_grad_ψ prob x1 y Sig
  let ψg := calc_ψ_grad_ψ prob x y Sig
  if squaredNorm h = 0 then .notFinite x1
  else
    let L0 := norm2 sq (vsub grad1 ψg.2) / norm2 sq h
    let L := if L0 < machineEps then machineEps else L0
    .ok x1 ψg.1 ψg.2 L (γ_init params.Lipschitz.Lγ_factor L)
      (σ_init (γ_init params.Lipschitz.Lγ_factor L) L)

/-- Initial iteration state entering the main loop (lines 238–251 of
`panoc.cpp`): `x̂₀, p₀` by the projected gradient step, `ψ̂₀, ŷ₀`,
`∇ψ₀ᵀp₀`, `‖p₀‖²`, and the initial forward-backward envelope
`φ₀ = ψ₀ + ‖p₀‖²/(2γ₀) + ∇ψ₀ᵀp₀`. -/
def initialState (prob : Problem) (x y Sig : vec) (ψ₀ : ℚ) (grad₀ : vec)
    (L γ σ : ℚ) : IterState :=
  let xp := calc_xhat prob γ x grad₀
  let ψy := calc_ψ_yhat prob xp.1 y Sig
  let gradp₀ := dot grad₀ xp.2
  let nsq₀ := squaredNorm xp.2
  { x := x, xhat := xp.1, yhat := ψy.2, p := xp.2, grad := grad₀,
    L := L, σ := σ, γ := γ, ψ := ψ₀, ψhat := ψy.1,
    φ := ψ₀ + 1 / (2 * γ) * nsq₀ + gradp₀, gradp := gradp₀, nsq := nsq₀ }

/-- Invariant of claim C5 on the scalar triple, relative to
`α = Lγ_factor` and the initial step size `γ₀`: positivity, `γ ≤ γ₀`,
`γ·L = α` (hence `γ = α/L`), and `σ = γ(1 − γL)/2 > 0`.  Finiteness of
`L` is implicit in the exact model. -/
def ScalarInv (α γ₀ L γ σ : ℚ) : Prop :=
  0 < L ∧ 0 < γ ∧ γ ≤ γ₀ ∧ γ * L = α ∧ γ = α / L ∧
    σ = γ * (1 - γ * L) / 2 ∧ 0 < σ

/-- `PANOCSolver::operator()` (lines 174–490 of `panoc.cpp`).  Arguments
mirror the C++ entry point: the problem, the parameters, the square-root
parameter `sq`, the caller's buffers `x`, `z`, `y`, `err_z` (with their
contents on entry), the weights `Sig = Σ` and tolerance `ε`, the clock
`elapsedAt`, the stop flag `stopAt`, and the fuel bounds for the inner
loops.  On a non-finite Lipschitz estimate it returns at once with only
`Stats.status` written and the caller's `x` holding `x₀ + h`; otherwise it
computes `x̂₀, p₀`, `ψ̂₀, ŷ₀`, `∇ψ₀ᵀp₀`, `‖p₀‖²`, the initial FBE `φ₀`,
and enters the main loop with fresh L-BFGS buffers. -/
def PANOCSolver.solve (prob : Problem) (params : PANOCParams) (sq : ℚ → ℚ)
    (x z y err_z Sig : vec) (ε : ℚ) (elapsedAt : ℕ → ℚ)
    (stopAt : ℕ → Bool) (shrinkFuel lsFuel : ℕ) : Option SolveResult :=
  match bootstrap prob params sq x y Sig with
  | .notFinite x1 =>
    some { x := x1, z := z, y := y, err_z := err_z,
           stats := { status := .NotFinite } }
  | .ok x1 ψ₀ grad₀ L γ σ =>
    let st := initialState prob x y Sig ψ₀ grad₀ L γ σ
    let lb : LBFGS := { mem := params.lbfgs_mem, pairs := [] }
    let slb : SpecializedLBFGS :=
      { buf := { mem := params.lbfgs_mem, pairs := [] },
        x := [], grad := [], xhat := [], γ := 0 }
    loopGo prob params y Sig x1 z err_z ε elapsedAt stopAt shrinkFuel lsFuel
      (params.max_iter + 1) 0 st lb slb (List.replicate x.length 0) {}

/-- Modelled from the spec: the termination list of §4.4.2 read, as claim
C2 states it, as a priority cascade in the spec's order —
`εₖ ≤ ε` (Converged), `k = max_iter` (MaxIter), `elapsed > max_time`
(MaxTime), `εₖ` non-finite (NotFinite), stop signal (Interrupted) —
with `none` when no condition holds and the iteration continues. -/
def specTerminationStatus (εopt : Option ℚ) (ε : ℚ) (k max_iter : ℕ)
    (elapsed max_time : ℚ) (stop : Bool) : Option SolverStatus :=
  if fple εopt ε then some .Converged
  else if k = max_iter then some .MaxIter
  else if elapsed > max_time then some .MaxTime
  else if !isFiniteQ εopt then some .NotFinite
  else if stop then some .Interrupted
  else none

/-- The priority cascade `exitStep` (lines 301–379) actually implements:
as `specTerminationStatus` but with MaxTime ranked above MaxIter (the
source's ternary `out_of_time ? MaxTime : MaxIter`). -/
def codeTerminationStatus (εopt : Option ℚ) (ε : ℚ) (k max_iter : ℕ)
    (elapsed max_time : ℚ) (stop : Bool) : Option SolverStatus :=
  if fple εopt ε then some .Converged
  else if elapsed > max_time then some .MaxTime
  else if k = max_iter then some .MaxIter
  else if !isFiniteQ εopt then some .NotFinite
  else if stop then some .Interrupted
  else none

/-! ## Concrete fixtures

Small concrete instances used to evaluate the definitions at specific
inputs (witnesses and counterexamples below): a one-dimensional,
unconstrained-in-`g` problem (`m = 0`), in two variants of the objective. -/

/-- Fixture: `n = 1`, `m = 0`, `C = [−1, 1]`, objective `f(x) = 0`. -/
def probZero : Problem where
  n := 1
  m := 0
  C := ⟨[-1], [1]⟩
  D := ⟨[], []⟩
  f := fun _ => 0
  grad_f := fun _ => [0]
  g := fun _ => []
  grad_g := fun _ _ => [0]

/-- Fixture: `n = 1`, `m = 0`, `C = [−10, 10]`, linear objective
`f(x) = x₁` with gradient `1`. -/
def probLin : Problem where
  n := 1
  m := 0
  C := ⟨[-10], [10]⟩
  D := ⟨[], []⟩
  f := fun v => v.headD 0
  grad_f := fun _ => [1]
  g := fun _ => []
  grad_g := fun _ _ => [0]

/-- Fixture: `n = 1`, `m = 0`, `C = [−100, 100]`, quadratic objective
`f(x) = x₁²/2` with gradient `x₁`. -/
def probQuad : Problem where
  n := 1
  m := 0
  C := ⟨[-100], [100]⟩
  D := ⟨[], []⟩
  f := fun v => (v.headD 0) ^ 2 / 2
  grad_f := fun v => [v.headD 0]
  g := fun _ => []
  grad_g := fun _ _ => [0]

/-- Fixture parameters: defaults of the spec (`ε = 1e-6`, `δ = 1e-12`,
`Lγ_factor = 0.95`, `lbfgs_mem = 10`, `max_iter = 100`, `τ_min = 1/256`),
a `max_time` of `1000`, both boolean options off. -/
def params0 : PANOCParams where
  Lipschitz := { ε := 1 / 1000000, δ := 1 / 1000000000000, Lγ_factor := 19 / 20 }
  lbfgs_mem := 10
  specialized_lbfgs := false
  update_lipschitz_in_linesearch := false
  max_iter := 100
  max_time := 1000
  τ_min := 1 / 256

/-- Fixture parameters as `params0` but with the absolute perturbation
floor `δ = 0`, so that at `x = 0` the finite-difference perturbation `h`
vanishes and the Lipschitz quotient is non-finite (`0/0`). -/
def paramsNoDelta : PANOCParams where
  Lipschitz := { ε := 1 / 1000000, δ := 0, Lγ_factor := 19 / 20 }
  lbfgs_mem := 10
  specialized_lbfgs := false
  update_lipschitz_in_linesearch := false
  max_iter := 100
  max_time := 1000
  τ_min := 1 / 256

/-- Fixture parameters with a pure absolute perturbation (`ε = 0`,
`δ = 2`) and `Lγ_factor = 1/2`, giving round numbers through the
bootstrap of `probQuad`. -/
def paramsFD : PANOCParams where
  Lipschitz := { ε := 0, δ := 2, Lγ_factor := 1 / 2 }
  lbfgs_mem := 10
  specialized_lbfgs := false
  update_lipschitz_in_linesearch := false
  max_iter := 100
  max_time := 1000
  τ_min := 1 / 256

/-- Fixture iteration state with distinguishable vector entries, for
exercising the exit block. -/
def st0 : IterState where
  x := [2]
  xhat := [3]
  yhat := []
  p := [1]
  grad := [4]
  L := 1
  σ := 1
  γ := 1
  ψ := 0
  ψhat := 0
  φ := 0
  gradp := 0
  nsq := 1

/-! ## Helper lemmas -/

theorem zipWith3_length (f : ℚ → ℚ → ℚ → ℚ) :
    ∀ (a b c : List ℚ),
      (zipWith3 f a b c).length = min a.length (min b.length c.length)
  | [], b, c => by cases b <;> cases c <;> simp [zipWith3]
  | a :: as, [], c => by cases c <;> simp [zipWith3]
  | a :: as, b :: bs, [] => by simp [zipWith3]
  | a :: as, b :: bs, c :: cs => by
    simp [zipWith3, zipWith3_length f as bs cs]
    omega

theorem zipWith3_get (f : ℚ → ℚ → ℚ → ℚ) :
    ∀ (a b c : List ℚ) (i : ℕ) (h : i < (zipWith3 f a b c).length),
      (zipWith3 f a b c).get ⟨i, h⟩ =
        f (a.get ⟨i, by rw [zipWith3_length] at h; omega⟩)
          (b.get ⟨i, by rw [zipWith3_length] at h; omega⟩)
          (c.get ⟨i, by rw [zipWith3_length] at h; omega⟩)
  | [], b, c, i, h => by simp [zipWith3] at h
  | a :: as, [], c, i, h => by simp [zipWith3] at h
  | a :: as, b :: bs, [], i, h => by simp [zipWith3] at h
  | a :: as, b :: bs, c :: cs, 0, _ => rfl
  | a :: as, b :: bs, c :: cs, i + 1, h => by
    simpa [zipWith3] using
      zipWith3_get f as bs cs i (by simpa [zipWith3] using h)

theorem vadd_length (a b : vec) : (vadd a b).length = min a.length b.length := by
  simp [vadd]

theorem vsub_length (a b : vec) : (vsub a b).length = min a.length b.length := by
  simp [vsub]

theorem smul_length (c : ℚ) (a : vec) : (smul c a).length = a.length := by
  simp [smul]

theorem vadd_get (a b : vec) (i : ℕ) (h : i < (vadd a b).length) :
    (vadd a b).get ⟨i, h⟩ =
      a.get ⟨i, by simp [vadd] at h; omega⟩ +
        b.get ⟨i, by simp [vadd] at h; omega⟩ := by
  simp [vadd, List.get_eq_getElem, List.getElem_zipWith]

theorem vsub_get (a b : vec) (i : ℕ) (h : i < (vsub a b).length) :
    (vsub a b).get ⟨i, h⟩ =
      a.get ⟨i, by simp [vsub] at h; omega⟩ -
        b.get ⟨i, by simp [vsub] at h; omega⟩ := by
  simp [vsub, List.get_eq_getElem, List.getElem_zipWith]

theorem smul_get (c : ℚ) (a : vec) (i : ℕ) (h : i < (smul c a).length) :
    (smul c a).get ⟨i, h⟩ = c * a.get ⟨i, by simpa [smul] using h⟩ := by
  simp [smul, List.get_eq_getElem]

theorem calc_xhat_p_length (prob : Problem) (γ : ℚ) (x g : vec)
    (hl : prob.C.lowerbound.length = x.length)
    (hu : prob.C.upperbound.length = x.length)
    (hg : g.length = x.length) :
    (calc_xhat prob γ x g).2.length = x.length := by
  simp [calc_xhat, zipWith3_length, vsub_length, smul_length, hl, hu, hg]

theorem calc_xhat_x_length (prob : Problem) (γ : ℚ) (x g : vec)
    (hl : prob.C.lowerbound.length = x.length)
    (hu : prob.C.upperbound.length = x.length)
    (hg : g.length = x.length) :
    (calc_xhat prob γ x g).1.length = x.length := by
  have hp := calc_xhat_p_length prob γ x g hl hu hg
  show (vadd x (calc_xhat prob γ x g).2).length = x.length
  simp [vadd_length, hp]

/-- Scalar core of the feasibility of the fused step: with `lo ≤ hi`, the
clamped update stays inside `[lo, hi]`. -/
theorem clamp_step_mem (lo hi xi v : ℚ) (h : lo ≤ hi) :
    lo ≤ xi + min (max v (lo - xi)) (hi - xi) ∧
      xi + min (max v (lo - xi)) (hi - xi) ≤ hi := by
  constructor
  · have h1 : lo - xi ≤ max v (lo - xi) := le_max_right _ _
    have h2 : lo - xi ≤ hi - xi := by linarith
    have h3 : lo - xi ≤ min (max v (lo - xi)) (hi - xi) := le_min h1 h2
    linarith
  · have h4 : min (max v (lo - xi)) (hi - xi) ≤ hi - xi := min_le_right _ _
    linarith

theorem calc_xhat_mem_aux (γ : ℚ) (xv gv lv uv : List ℚ)
    (hbox : List.Forall₂ (· ≤ ·) lv uv)
    (hg : gv.length = xv.length) (hl : lv.length = xv.length)
    (hu : uv.length = xv.length) :
    List.Forall₂ (· ≤ ·) lv
      (vadd xv (zipWith3 (fun mg lo hi => min (max mg lo) hi)
        (smul (-γ) gv) (vsub lv xv) (vsub uv xv))) ∧
    List.Forall₂ (· ≤ ·)
      (vadd xv (zipWith3 (fun mg lo hi => min (max mg lo) hi)
        (smul (-γ) gv) (vsub lv xv) (vsub uv xv))) uv := by
  induction xv generalizing gv lv uv with
  | nil =>
    have hg0 : gv = [] := List.length_eq_zero.mp (by simpa using hg)
    have hl0 : lv = [] := List.length_eq_zero.mp (by simpa using hl)
    have hu0 : uv = [] := List.length_eq_zero.mp (by simpa using hu)
    subst hg0 hl0 hu0
    exact ⟨by simp [vadd, vsub, smul, zipWith3], by simp [vadd, vsub, smul, zipWith3]⟩
  | cons xi xs ih =>
    obtain ⟨g0, gs, rfl⟩ : ∃ g0 gs, gv = g0 :: gs := by
      cases gv with
      | nil => simp at hg
      | cons a l => exact ⟨a, l, rfl⟩
    obtain ⟨l0, ls, rfl⟩ : ∃ l0 ls, lv = l0 :: ls := by
      cases lv with
      | nil => simp at hl
      | cons a l => exact ⟨a, l, rfl⟩
    obtain ⟨u0, us, rfl⟩ : ∃ u0 us, uv = u0 :: us := by
      cases uv with
      | nil => simp at hu
      | cons a l => exact ⟨a, l, rfl⟩
    rw [List.forall₂_cons] at hbox
    obtain ⟨hle, hbox'⟩ := hbox
    have ihs := ih gs ls us hbox' (by simpa using hg) (by simpa using hl)
      (by simpa using hu)
    have hmem := clamp_step_mem l0 u0 xi (-γ * g0) hle
    constructor
    · show List.Forall₂ (· ≤ ·) (l0 :: ls) (_ :: _)
      exact List.Forall₂.cons hmem.1 ihs.1
    · exact List.Forall₂.cons hmem.2 ihs.2

theorem scalarInv_init {α L₀ : ℚ} (hα0 : 0 < α) (hα1 : α < 1)
    (hL : 0 < L₀) :
    ScalarInv α (γ_init α L₀) L₀ (γ_init α L₀) (σ_init (γ_init α L₀) L₀) := by
  have hγ : 0 < γ_init α L₀ := div_pos hα0 hL
  have hγL : γ_init α L₀ * L₀ = α := div_mul_cancel₀ α hL.ne'
  refine ⟨hL, hγ, le_refl _, hγL, rfl, rfl, ?_⟩
  unfold σ_init
  rw [hγL]
  exact div_pos (mul_pos hγ (by linarith)) two_pos

theorem scalarInv_pass {α γ₀ L γ σ : ℚ} (h : ScalarInv α γ₀ L γ σ) :
    ScalarInv α γ₀ (shrinkScalars (L, σ, γ)).1 (shrinkScalars (L, σ, γ)).2.2
      (shrinkScalars (L, σ, γ)).2.1 := by
  obtain ⟨hL, hγ, hγ₀, hγL, hγeq, hσ, hσ0⟩ := h
  simp only [shrinkScalars]
  refine ⟨by positivity, by positivity, by linarith, ?_, ?_, ?_, by linarith⟩
  · have hr : γ / 2 * (2 * L) = γ * L := by ring
    rw [hr, hγL]
  · rw [hγeq, div_div, mul_comm L 2]
  · rw [hσ]
    ring

theorem shrinkLoop_some_inv {α γ₀ : ℚ} (prob : Problem) (y Sig x grad : vec)
    (ψ margin : ℚ) (doReset : Bool) :
    ∀ (fuel : ℕ) (s s' : ShrinkState),
      shrinkLoop prob y Sig x grad ψ margin doReset fuel s = some s' →
      ScalarInv α γ₀ s.L s.γ s.σ → ScalarInv α γ₀ s'.L s'.γ s'.σ
  | 0, s, s', h, hInv => by
    rw [shrinkLoop] at h
    split at h
    · cases h
    · injection h with h
      subst h
      exact hInv
  | fuel + 1, s, s', h, hInv => by
    rw [shrinkLoop] at h
    split at h
    · exact shrinkLoop_some_inv prob y Sig x grad ψ margin doReset fuel _ s'
        h (scalarInv_pass hInv)
    · injection h with h
      subst h
      exact hInv

theorem shrinkLoop_some_exit (prob : Problem) (y Sig x grad : vec)
    (ψ margin : ℚ) (doReset : Bool) :
    ∀ (fuel : ℕ) (s s' : ShrinkState),
      shrinkLoop prob y Sig x grad ψ margin doReset fuel s = some s' →
      s'.ψhat ≤ ψ + margin + s'.gradp + 1 / 2 * s'.L * s'.nsq
  | 0, s, s', h => by
    rw [shrinkLoop] at h
    split at h
    · cases h
    · injection h with h
      subst h
      linarith [not_lt.mp (by assumption : ¬ s.ψhat > _)]
  | fuel + 1, s, s', h => by
    rw [shrinkLoop] at h
    split at h
    · exact shrinkLoop_some_exit prob y Sig x grad ψ margin doReset fuel _ s' h
    · injection h with h
      subst h
      linarith [not_lt.mp (by assumption : ¬ s.ψhat > _)]

theorem lineSearch_some_exit (prob : Problem) (params : PANOCParams)
    (y Sig xₖ xhatₖ pₖ qₖ : vec) (Lₖ σₖ γₖ φₖ σnγp : ℚ) (shrinkFuel : ℕ) :
    ∀ (fuel : ℕ) (τ : ℚ) (lb : LBFGS) (r : LSResult),
      lineSearch prob params y Sig xₖ xhatₖ pₖ qₖ Lₖ σₖ γₖ φₖ σnγp
        shrinkFuel fuel τ lb = some r →
      (r.ls_cond ≤ 0 ∨ r.τ < params.τ_min) ∧
        (r.ls_cond ≤ 0 → r.φ' ≤ φₖ - σnγp)
  | 0, τ, lb, r, h => by simp [lineSearch] at h
  | fuel + 1, τ, lb, r, h => by
    rw [lineSearch] at h
    generalize (if τ / 2 < params.τ_min then xhatₖ
      else vadd (vadd xₖ (smul (1 - τ) pₖ)) (smul τ qₖ)) = cand at h
    split at h
    · cases h
    · unfold_let at h
      split at h
      · exact lineSearch_some_exit prob params y Sig xₖ xhatₖ pₖ qₖ Lₖ σₖ
          γₖ φₖ σnγp shrinkFuel fuel _ _ r h
      · rename_i hcond
        rw [not_and_or] at hcond
        injection h with h
        subst h
        refine ⟨?_, fun hle => ?_⟩
        · rcases hcond with hc | hc
          · exact Or.inl (not_lt.mp hc)
          · exact Or.inr (not_le.mp hc)
        · dsimp only at hle ⊢
          linarith

/-- Scalars of an accepted line-search result: either untouched copies of
`(Lₖ, σₖ, γₖ)` or the output of the in-search shrink loop, so the C5
invariant is preserved. -/
theorem lineSearch_some_scalarInv {α γ₀ : ℚ} (prob : Problem)
    (params : PANOCParams) (y Sig xₖ xhatₖ pₖ qₖ : vec)
    (Lₖ σₖ γₖ φₖ σnγp : ℚ) (shrinkFuel : ℕ) :
    ∀ (fuel : ℕ) (τ : ℚ) (lb : LBFGS) (r : LSResult),
      lineSearch prob params y Sig xₖ xhatₖ pₖ qₖ Lₖ σₖ γₖ φₖ σnγp
        shrinkFuel fuel τ lb = some r →
      ScalarInv α γ₀ Lₖ γₖ σₖ → ScalarInv α γ₀ r.L' r.γ' r.σ'
  | 0, τ, lb, r, h, hInv => by simp [lineSearch] at h
  | fuel + 1, τ, lb, r, h, hInv => by
    rw [lineSearch] at h
    generalize (if τ / 2 < params.τ_min then xhatₖ
      else vadd (vadd xₖ (smul (1 - τ) pₖ)) (smul τ qₖ)) = cand at h
    split at h
    · cases h
    · rename_i sh heq
      unfold_let at h
      split at h
      · exact lineSearch_some_scalarInv prob params y Sig xₖ xhatₖ pₖ qₖ Lₖ
          σₖ γₖ φₖ σnγp shrinkFuel fuel _ _ r h hInv
      · injection h with h
        subst h
        show ScalarInv α γ₀ sh.L sh.γ sh.σ
        split at heq
        · exact shrinkLoop_some_inv prob y Sig _ _ _ 0 _ shrinkFuel _ sh heq
            hInv
        · injection heq with heq
          subst heq
          exact hInv

/-- With `update_lipschitz_in_linesearch = false` the line search never
runs the shrink loop, so the scalars it returns are the inputs. -/
theorem lineSearch_flagFalse_scalars (prob : Problem) (params : PANOCParams)
    (y Sig xₖ xhatₖ pₖ qₖ : vec) (Lₖ σₖ γₖ φₖ σnγp : ℚ) (shrinkFuel : ℕ)
    (hflag : params.update_lipschitz_in_linesearch = false) :
    ∀ (fuel : ℕ) (τ : ℚ) (lb : LBFGS) (r : LSResult),
      lineSearch prob params y Sig xₖ xhatₖ pₖ qₖ Lₖ σₖ γₖ φₖ σnγp
        shrinkFuel fuel τ lb = some r →
      r.L' = Lₖ ∧ r.σ' = σₖ ∧ r.γ' = γₖ
  | 0, τ, lb, r, h => by simp [lineSearch] at h
  | fuel + 1, τ, lb, r, h => by
    rw [lineSearch] at h
    generalize (if τ / 2 < params.τ_min then xhatₖ
      else vadd (vadd xₖ (smul (1 - τ) pₖ)) (smul τ qₖ)) = cand at h
    rw [hflag] at h
    simp only [Bool.false_eq_true, if_false] at h
    unfold_let at h
    split at h
    · exact lineSearch_flagFalse_scalars prob params y Sig xₖ xhatₖ pₖ qₖ
        Lₖ σₖ γₖ φₖ σnγp shrinkFuel hflag fuel _ _ r h
    · injection h with h
      subst h
      exact ⟨rfl, rfl, rfl⟩

theorem initialState_x (prob : Problem) (x y Sig : vec) (ψ₀ : ℚ)
    (grad₀ : vec) (L γ σ : ℚ) :
    (initialState prob x y Sig ψ₀ grad₀ L γ σ).x = x := rfl

theorem initialState_grad (prob : Problem) (x y Sig : vec) (ψ₀ : ℚ)
    (grad₀ : vec) (L γ σ : ℚ) :
    (initialState prob x y Sig ψ₀ grad₀ L γ σ).grad = grad₀ := rfl

theorem initialState_ψ (prob : Problem) (x y Sig : vec) (ψ₀ : ℚ)
    (grad₀ : vec) (L γ σ : ℚ) :
    (initialState prob x y Sig ψ₀ grad₀ L γ σ).ψ = ψ₀ := rfl

/-- A successful bootstrap hands control to the main loop started at
`k = 0` with the initial state and fresh buffers. -/
theorem solve_ok_eq (prob : Problem) (params : PANOCParams) (sq : ℚ → ℚ)
    (x z y err_z Sig : vec) (ε : ℚ) (elapsedAt : ℕ → ℚ) (stopAt : ℕ → Bool)
    (shrinkFuel lsFuel : ℕ) (x1 : vec) (ψ₀ : ℚ) (grad₀ : vec) (L γ σ : ℚ)
    (h : bootstrap prob params sq x y Sig = .ok x1 ψ₀ grad₀ L γ σ) :
    PANOCSolver.solve prob params sq x z y err_z Sig ε elapsedAt stopAt
        shrinkFuel lsFuel =
      loopGo prob params y Sig x1 z err_z ε elapsedAt stopAt shrinkFuel
        lsFuel (params.max_iter + 1) 0
        (initialState prob x y Sig ψ₀ grad₀ L γ σ)
        { mem := params.lbfgs_mem, pairs := [] }
        { buf := { mem := params.lbfgs_mem, pairs := [] }, x := [],
          grad := [], xhat := [], γ := 0 }
        (List.replicate x.length 0) {} := by
  unfold PANOCSolver.solve
  rw [h]

/-! ## Claims -/

/-- C7: `calc_x̂` computes the step componentwise as
`pᵢ = fmin(fmax(−γ∇ψᵢ, xₗᵢ − xᵢ), xᵤᵢ − xᵢ)` (the mandated
cancellation-free clamp form) and sets `x̂ = x + p`; consequently, when the
box is consistent (`xₗ ≤ xᵤ` componentwise), `x̂` lies in `C`
componentwise. -/
theorem calc_xhat_fused_form_and_feasible (prob : Problem) (γ : ℚ)
    (x g : vec)
    (hl : prob.C.lowerbound.length = x.length)
    (hu : prob.C.upperbound.length = x.length)
    (hg : g.length = x.length)
    (hbox : List.Forall₂ (· ≤ ·) prob.C.lowerbound prob.C.upperbound) :
    (∀ (i : ℕ) (hi : i < x.length),
      (calc_xhat prob γ x g).2.get
          ⟨i, by rw [calc_xhat_p_length prob γ x g hl hu hg]; exact hi⟩ =
        min (max (-γ * g.get ⟨i, by omega⟩)
              (prob.C.lowerbound.get ⟨i, by omega⟩ - x.get ⟨i, hi⟩))
            (prob.C.upperbound.get ⟨i, by omega⟩ - x.get ⟨i, hi⟩)) ∧
    (calc_xhat prob γ x g).1 = vadd x (calc_xhat prob γ x g).2 ∧
    List.Forall₂ (· ≤ ·) prob.C.lowerbound (calc_xhat prob γ x g).1 ∧
    List.Forall₂ (· ≤ ·) (calc_xhat prob γ x g).1 prob.C.upperbound := by
  refine ⟨?_, rfl, ?_, ?_⟩
  · intro i hi
    show (zipWith3 (fun mg lo hi => min (max mg lo) hi)
        (smul (-γ) g) (vsub prob.C.lowerbound x)
        (vsub prob.C.upperbound x)).get ⟨i, _⟩ = _
    simp only [zipWith3_get, smul_get, vsub_get]
  · exact (calc_xhat_mem_aux γ x g prob.C.lowerbound prob.C.upperbound hbox
      hg hl hu).1
  · exact (calc_xhat_mem_aux γ x g prob.C.lowerbound prob.C.upperbound hbox
      hg hl hu).2

/-- C5: with `α = Lγ_factor ∈ (0,1)` and a positive finite `L₀`, the
initialization `γ₀ = α/L₀`, `σ₀ = γ₀(1 − γ₀L₀)/2` satisfies
`0 < γ ≤ γ₀`, `L > 0`, `γ·L = α < 1` with `γ = α/L`, and
`σ = γ(1 − γL)/2 > 0`; these relations are preserved exactly by every pass
of the shrink loop (`L` doubled, `γ` and `σ` halved), by the shrink loop
as a whole, and across the line search producing the next accepted
iterate's scalars. -/
theorem scalar_relations_invariant (α L₀ : ℚ) (hα0 : 0 < α) (hα1 : α < 1)
    (hL : 0 < L₀) :
    ScalarInv α (γ_init α L₀) L₀ (γ_init α L₀) (σ_init (γ_init α L₀) L₀) ∧
    (∀ L γ σ, ScalarInv α (γ_init α L₀) L γ σ →
      ScalarInv α (γ_init α L₀) (shrinkScalars (L, σ, γ)).1
        (shrinkScalars (L, σ, γ)).2.2 (shrinkScalars (L, σ, γ)).2.1) ∧
    (∀ (prob : Problem) (y Sig x grad : vec) (ψ margin : ℚ) (doReset : Bool)
      (fuel : ℕ) (s s' : ShrinkState),
      shrinkLoop prob y Sig x grad ψ margin doReset fuel s = some s' →
      ScalarInv α (γ_init α L₀) s.L s.γ s.σ →
      ScalarInv α (γ_init α L₀) s'.L s'.γ s'.σ) ∧
    (∀ (prob : Problem) (params : PANOCParams) (y Sig xₖ xhatₖ pₖ qₖ : vec)
      (Lₖ σₖ γₖ φₖ σnγp : ℚ) (shrinkFuel fuel : ℕ) (τ : ℚ) (lb : LBFGS)
      (r : LSResult),
      lineSearch prob params y Sig xₖ xhatₖ pₖ qₖ Lₖ σₖ γₖ φₖ σnγp shrinkFuel
        fuel τ lb = some r →
      ScalarInv α (γ_init α L₀) Lₖ γₖ σₖ →
      ScalarInv α (γ_init α L₀) r.L' r.γ' r.σ') :=
  ⟨scalarInv_init hα0 hα1 hL,
   fun _ _ _ h => scalarInv_pass h,
   fun prob y Sig x grad ψ margin doReset fuel s s' h hI =>
     shrinkLoop_some_inv prob y Sig x grad ψ margin doReset fuel s s' h hI,
   fun prob params y Sig xₖ xhatₖ pₖ qₖ Lₖ σₖ γₖ φₖ σnγp sf fuel τ lb r h
       hI =>
     lineSearch_some_scalarInv prob params y Sig xₖ xhatₖ pₖ qₖ Lₖ σₖ γₖ φₖ
       σnγp sf fuel τ lb r h hI⟩

/-- Witness for C5 at `α = 19/20` (the default `Lγ_factor = 0.95`),
`L₀ = 1`: the initialization satisfies the invariant. -/
theorem scalar_relations_invariant_witness :
    ScalarInv (19 / 20) (γ_init (19 / 20) 1) 1 (γ_init (19 / 20) 1)
      (σ_init (γ_init (19 / 20) 1) 1) :=
  (scalar_relations_invariant (19 / 20) 1 (by norm_num) (by norm_num)
    (by norm_num)).1

/-- C4: the Step-A shrink loop is gated by `k = 0` or
`update_lipschitz_in_linesearch = false` (its L-BFGS flush by `k > 0` and
non-specialized mode); each pass doubles `L`, halves `σ` and `γ`,
recomputes `(x̂, p)` at the new step size and `ψ̂` at the new `x̂`,
flushing the buffer when the gate says so; whenever the loop exits,
`ψ(x̂) ≤ ψ + margin + ∇ψᵀp + ½L‖p‖²` holds (the source's `margin` is 0);
and with `update_lipschitz_in_linesearch = false` the in-search shrink is
skipped, so the line search returns the scalars unchanged. -/
theorem shrink_gating_pass_and_qub_exit :
    (∀ (params : PANOCParams) (k : ℕ),
      stepACondition params k = true ↔
        (k = 0 ∨ params.update_lipschitz_in_linesearch = false)) ∧
    (∀ (params : PANOCParams) (k : ℕ),
      stepAResetCondition params k = true ↔
        (0 < k ∧ params.specialized_lbfgs = false)) ∧
    (∀ (prob : Problem) (y Sig x grad : vec) (doReset : Bool)
      (s : ShrinkState),
      (shrinkPass prob y Sig x grad doReset s).L = 2 * s.L ∧
      (shrinkPass prob y Sig x grad doReset s).σ = s.σ / 2 ∧
      (shrinkPass prob y Sig x grad doReset s).γ = s.γ / 2 ∧
      (shrinkPass prob y Sig x grad doReset s).xhat =
        (calc_xhat prob (s.γ / 2) x grad).1 ∧
      (shrinkPass prob y Sig x grad doReset s).p =
        (calc_xhat prob (s.γ / 2) x grad).2 ∧
      (shrinkPass prob y Sig x grad doReset s).ψhat =
        (calc_ψ_yhat prob (calc_xhat prob (s.γ / 2) x grad).1 y Sig).1 ∧
      (shrinkPass prob y Sig x grad doReset s).lb =
        (if doReset then s.lb.reset else s.lb)) ∧
    (∀ (prob : Problem) (y Sig x grad : vec) (ψ margin : ℚ) (doReset : Bool)
      (fuel : ℕ) (s s' : ShrinkState),
      shrinkLoop prob y Sig x grad ψ margin doReset fuel s = some s' →
      s'.ψhat ≤ ψ + margin + s'.gradp + 1 / 2 * s'.L * s'.nsq) ∧
    (∀ (prob : Problem) (params : PANOCParams) (y Sig xₖ xhatₖ pₖ qₖ : vec)
      (Lₖ σₖ γₖ φₖ σnγp : ℚ) (shrinkFuel fuel : ℕ) (τ : ℚ) (lb : LBFGS)
      (r : LSResult),
      params.update_lipschitz_in_linesearch = false →
      lineSearch prob params y Sig xₖ xhatₖ pₖ qₖ Lₖ σₖ γₖ φₖ σnγp shrinkFuel
        fuel τ lb = some r →
      r.L' = Lₖ ∧ r.σ' = σₖ ∧ r.γ' = γₖ) := by
  refine ⟨?_, ?_, ?_, ?_, ?_⟩
  · intro params k
    simp [stepACondition, Bool.or_eq_true, beq_iff_eq, Bool.not_eq_true']
  · intro params k
    simp [stepAResetCondition, Bool.and_eq_true, decide_eq_true_eq,
      Bool.not_eq_true']
  · intro prob y Sig x grad doReset s
    exact ⟨rfl, rfl, rfl, rfl, rfl, rfl, rfl⟩
  · intro prob y Sig x grad ψ margin doReset fuel s s' h
    exact shrinkLoop_some_exit prob y Sig x grad ψ margin doReset fuel s s' h
  · intro prob params y Sig xₖ xhatₖ pₖ qₖ Lₖ σₖ γₖ φₖ σnγp sf fuel τ lb r
      hflag h
    exact lineSearch_flagFalse_scalars prob params y Sig xₖ xhatₖ pₖ qₖ Lₖ σₖ
      γₖ φₖ σnγp sf hflag fuel τ lb r h

/-- C3 (amended): a line-search candidate is accepted exactly when
`ls_cond ≤ 0`, i.e. `φₖ₊₁ ≤ φₖ − σₖ·‖pₖ‖²/γₖ²` (without the claim's extra
factor `γₖ`), or when `τ < τ_min` after the halving; on every acceptance
with `ls_cond ≤ 0` the FBE decreases by at least `σₖ·‖pₖ‖²/γₖ²` (the
`τ < τ_min` fallback guarantees no such bound); and for `k > 0`,
`linesearch_failures` is incremented exactly when the final `τ < τ_min`. -/
theorem linesearch_acceptance_and_descent :
    (∀ (prob : Problem) (params : PANOCParams) (y Sig xₖ xhatₖ pₖ qₖ : vec)
      (Lₖ σₖ γₖ φₖ σnγp : ℚ) (shrinkFuel fuel : ℕ) (τ : ℚ) (lb : LBFGS)
      (r : LSResult),
      lineSearch prob params y Sig xₖ xhatₖ pₖ qₖ Lₖ σₖ γₖ φₖ σnγp shrinkFuel
        fuel τ lb = some r →
      (r.ls_cond ≤ 0 ∨ r.τ < params.τ_min)) ∧
    (∀ (prob : Problem) (params : PANOCParams) (y Sig xₖ xhatₖ pₖ qₖ : vec)
      (Lₖ σₖ γₖ φₖ nsqp : ℚ) (shrinkFuel fuel : ℕ) (τ : ℚ) (lb : LBFGS)
      (r : LSResult),
      lineSearch prob params y Sig xₖ xhatₖ pₖ qₖ Lₖ σₖ γₖ φₖ
        (σₖ * nsqp / (γₖ * γₖ)) shrinkFuel fuel τ lb = some r →
      r.ls_cond ≤ 0 → r.φ' ≤ φₖ - σₖ * nsqp / (γₖ * γₖ)) ∧
    (∀ (params : PANOCParams) (k : ℕ) (τ : ℚ) (s : Stats), k ≠ 0 →
      ((linesearchFailureStep params k τ s).linesearch_failures =
          s.linesearch_failures + 1 ↔ τ < params.τ_min)) := by
  refine ⟨?_, ?_, ?_⟩
  · intro prob params y Sig xₖ xhatₖ pₖ qₖ Lₖ σₖ γₖ φₖ σnγp sf fuel τ lb r h
    exact (lineSearch_some_exit prob params y Sig xₖ xhatₖ pₖ qₖ Lₖ σₖ γₖ φₖ
      σnγp sf fuel τ lb r h).1
  · intro prob params y Sig xₖ xhatₖ pₖ qₖ Lₖ σₖ γₖ φₖ nsqp sf fuel τ lb r h
      hle
    exact (lineSearch_some_exit prob params y Sig xₖ xhatₖ pₖ qₖ Lₖ σₖ γₖ φₖ
      (σₖ * nsqp / (γₖ * γₖ)) sf fuel τ lb r h).2 hle
  · intro params k τ s hk
    unfold linesearchFailureStep
    split
    · rename_i hc
      simp [hc.1]
    · rename_i hc
      rw [not_and_or] at hc
      rcases hc with hc | hc
      · exact ⟨fun h => absurd h (by omega), fun h => absurd h hc⟩
      · exact absurd hk (by simpa using hc)

/-- Counterexample to C3 as stated: a concrete single-pass line search on
`probQuad` (scalars `Lₖ = 19/40`, `σₖ = 1/20`, `γₖ = 2` satisfying the C5
relations with `α = 19/20`, `φₖ = −43/100`, `pₖ = [2]`) is accepted with
`ls_cond = −1/50 ≤ 0` and `τ = 1/2 ≥ τ_min`, yet the claim's acceptance
condition `φₖ₊₁ ≤ φₖ − σₖ‖pₖ‖²/γₖ²·γₖ ∨ τ < τ_min` is false there
(`φₖ₊₁ = −1/2 > −53/100`). -/
theorem linesearch_acceptance_cex :
    ((lineSearch probQuad params0 [] [] [0] [9] [2] [1] (19 / 40) (1 / 20) 2
        (-(43 / 100)) (1 / 20 * squaredNorm [2] / (2 * 2)) 5 5 1
        ⟨10, []⟩).map fun r => (r.φ', r.τ, r.ls_cond)) =
      some (-(1 / 2), 1 / 2, -(1 / 50)) ∧
    ¬((-(1 / 2) : ℚ) ≤ -(43 / 100) - 1 / 20 * squaredNorm [2] / (2 * 2) * 2 ∨
      ((1 : ℚ) / 2) < params0.τ_min) := by
  constructor
  · norm_num [lineSearch, calc_ψ_grad_ψ, calc_ψ_yhat, calc_grad_ψ_from_yhat,
      calc_xhat, probQuad, params0, vadd, vsub, vdiv, vmul, smul, dot,
      squaredNorm, projecting_difference, project, zipWith3]
  · norm_num [squaredNorm, dot, params0]

/-- C6: the Lipschitz bootstrap agrees with the spec's §4.4.1 recipe
(perturbation `hᵢ = max(δ, ε·|xᵢ|)`, gradients at `x` and `x + h`,
`L₀ = ‖∇ψ(x+h) − ∇ψ(x)‖₂/‖h‖₂`, upward clamp at machine epsilon,
NotFinite on a non-finite estimate, `γ₀ = Lγ_factor/L₀`,
`σ₀ = γ₀(1 − γ₀L₀)/2`), given a nonnegative relative perturbation `ε`
(default `1e-6`): the code's `hᵢ = max(|ε·xᵢ|, δ)` then coincides with the
spec's formula. -/
theorem bootstrap_matches_spec (prob : Problem) (params : PANOCParams)
    (sq : ℚ → ℚ) (x y Sig : vec) (hε : 0 ≤ params.Lipschitz.ε) :
    bootstrap prob params sq x y Sig = bootstrapSpec prob params sq x y Sig := by
  have hh : lipschitz_h params x =
      x.map (fun v => max params.Lipschitz.δ (params.Lipschitz.ε * |v|)) := by
    unfold lipschitz_h smul
    rw [List.map_map]
    apply List.map_congr_left
    intro a _
    simp only [Function.comp_apply]
    rw [abs_mul, abs_of_nonneg hε, max_comm]
  unfold bootstrap bootstrapSpec
  rw [hh]

/-- Witness for C6 at `probZero`, the default parameters and `x = [0]`. -/
theorem bootstrap_matches_spec_witness :
    bootstrap probZero params0 id [0] [] [] =
      bootstrapSpec probZero params0 id [0] [] [] :=
  bootstrap_matches_spec probZero params0 id [0] [] []
    (by norm_num [params0])

/-- C10: when the finite-difference Lipschitz estimate is non-finite, the
solver returns status NotFinite with the caller's `x` buffer equal to the
perturbed point `x₀ + h` (incremented in place, never restored), `y`, `z`
and `err_z` untouched, and every other `Stats` field at its
default-constructed value (the result's `Stats` is the default record with
only `status` set). -/
theorem solve_notfinite_frame (prob : Problem) (params : PANOCParams)
    (sq : ℚ → ℚ) (x z y err_z Sig : vec) (ε : ℚ) (elapsedAt : ℕ → ℚ)
    (stopAt : ℕ → Bool) (shrinkFuel lsFuel : ℕ) (x1 : vec)
    (h : bootstrap prob params sq x y Sig = .notFinite x1) :
    PANOCSolver.solve prob params sq x z y err_z Sig ε elapsedAt stopAt
        shrinkFuel lsFuel =
      some { x := x1, z := z, y := y, err_z := err_z,
             stats := { status := SolverStatus.NotFinite } } ∧
    x1 = vadd x (lipschitz_h params x) := by
  constructor
  · unfold PANOCSolver.solve
    rw [h]
  · unfold bootstrap at h
    unfold_let at h
    split at h
    · injection h with h
      exact h.symm
    · cases h

/-- Witness for C10: `probZero` with `δ = 0` at `x = [0]` has `h = 0`, a
`0/0` Lipschitz quotient, and the solver returns at once with the output
buffers (`z = [7]`, `err_z = [8]`) untouched. -/
theorem solve_notfinite_frame_witness :
    PANOCSolver.solve probZero paramsNoDelta id [0] [7] [] [8] [] 1
        (fun _ => 0) (fun _ => false) 5 5 =
      some { x := [0], z := [7], y := [], err_z := [8],
             stats := { status := SolverStatus.NotFinite } } :=
  (solve_notfinite_frame probZero paramsNoDelta id [0] [7] [] [8] [] 1
    (fun _ => 0) (fun _ => false) 5 5 [0]
    (by norm_num [bootstrap, lipschitz_h, smul, vadd, vdiv, vmul, dot,
      squaredNorm, probZero, paramsNoDelta, calc_grad_ψ, calc_ψ_grad_ψ,
      calc_ψ_yhat, calc_grad_ψ_from_yhat, projecting_difference, project,
      zipWith3])).1

/-- C2 (amended): the status `exitStep` returns is classified exactly by
the priority cascade Converged, MaxTime, MaxIter, NotFinite, Interrupted
(the spec's list with MaxTime and MaxIter exchanged), for every iteration
`k` and every combination of simultaneously holding conditions; `none` on
both sides means the iteration continues. -/
theorem exitStep_status_priority (prob : Problem) (params : PANOCParams)
    (y Sig xbuf zbuf errbuf : vec) (ε : ℚ) (st : IterState) (k : ℕ)
    (εopt : Option ℚ) (elapsed : ℚ) (stop : Bool) (s : Stats) :
    ((exitStep prob params y Sig xbuf zbuf errbuf ε st k εopt elapsed stop
        s).map fun r => r.stats.status) =
      codeTerminationStatus εopt ε k params.max_iter elapsed params.max_time
        stop := by
  cases hf : fple εopt ε <;>
    cases hk : k == params.max_iter <;>
      cases hε : isFiniteQ εopt <;>
        cases hs : stop <;>
          simp_all [exitStep, codeTerminationStatus, beq_iff_eq] <;>
            split_ifs <;> simp_all

/-- Counterexample to C2 as stated: at `k = max_iter = 100` with
`elapsed = 1001 > max_time = 1000` and a finite residual above tolerance,
the code reports MaxTime while the spec's ordering (claim C2) demands
MaxIter. -/
theorem exitStep_status_priority_cex :
    ((exitStep probZero params0 [] [] [9] [7] [8] 1 st0 100 (some 5) 1001
        false {}).map fun r => r.stats.status) = some SolverStatus.MaxTime ∧
    specTerminationStatus (some 5) 1 100 params0.max_iter 1001
        params0.max_time false = some SolverStatus.MaxIter ∧
    SolverStatus.MaxTime ≠ SolverStatus.MaxIter := by
  refine ⟨by decide, by decide, by decide⟩

/-- C1 (amended): whenever the termination block exits, the Converged,
MaxIter, MaxTime and Interrupted exits compute `(ẑ, err_z)` from `x̂ₖ` via
`calc_ẑ`, write `x ← x̂ₖ` and `y ← ŷ(x̂ₖ)`, and fill the Stats fields
`iterations`, `ε`, `elapsed_time`; the NotFinite exit fills the same Stats
fields but leaves `x`, `y`, `z`, `err_z` with their current buffer
contents. -/
theorem exitStep_termination_effects (prob : Problem) (params : PANOCParams)
    (y Sig xbuf zbuf errbuf : vec) (ε : ℚ) (st : IterState) (k : ℕ)
    (εopt : Option ℚ) (elapsed : ℚ) (stop : Bool) (s : Stats)
    (r : SolveResult)
    (h : exitStep prob params y Sig xbuf zbuf errbuf ε st k εopt elapsed
      stop s = some r) :
    (r.stats.status ≠ SolverStatus.NotFinite →
      r.x = st.xhat ∧ r.y = st.yhat ∧
      r.z = (calc_zhat prob st.xhat y Sig).1 ∧
      r.err_z = (calc_zhat prob st.xhat y Sig).2 ∧
      r.stats.iterations = k ∧ r.stats.ε = εopt ∧
      r.stats.elapsed_time = some elapsed) ∧
    (r.stats.status = SolverStatus.NotFinite →
      r.x = xbuf ∧ r.y = y ∧ r.z = zbuf ∧ r.err_z = errbuf ∧
      r.stats.iterations = k ∧ r.stats.ε = εopt ∧
      r.stats.elapsed_time = some elapsed) := by
  simp only [exitStep] at h
  split at h
  · injection h with h
    subst h
    refine ⟨fun _ => ⟨rfl, rfl, rfl, rfl, rfl, rfl, rfl⟩, fun hst => ?_⟩
    exfalso
    revert hst
    simp only []
    split <;> simp_all <;> split <;> simp_all
  · split at h
    · injection h with h
      subst h
      exact ⟨fun hst => absurd rfl hst, fun _ =>
        ⟨rfl, rfl, rfl, rfl, rfl, rfl, rfl⟩⟩
    · split at h
      · injection h with h
        subst h
        exact ⟨fun _ => ⟨rfl, rfl, rfl, rfl, rfl, rfl, rfl⟩,
          fun hst => by simp_all⟩
      · cases h

/-- Counterexample to C1 as stated: a NotFinite termination
(`εopt = none`, no other condition holding) returns with the caller's
buffer contents (`x = [9] ≠ x̂ₖ = [3]`, `z`, `err_z` untouched) instead of
writing `x ← x̂ₖ` and `(ẑ, err_z)`. -/
theorem exitStep_termination_effects_cex :
    exitStep probZero params0 [] [] [9] [7] [8] 1 st0 3 none 0 false {} =
      some { x := [9], z := [7], y := [], err_z := [8],
             stats := { status := SolverStatus.NotFinite, ε := none,
                        elapsed_time := some 0, iterations := 3 } } ∧
    ([9] : vec) ≠ st0.xhat ∧
    ([7] : vec) ≠ (calc_zhat probZero st0.xhat [] []).1 := by
  refine ⟨by decide, by decide, by decide⟩

/-- Witness for C1 at a concrete Converged exit (`εopt = some 0 ≤ ε = 1`,
`k = 0`): the written `x` equals `x̂ₖ`. -/
theorem exitStep_termination_effects_witness :
    ({ x := [3], z := [], y := [], err_z := [],
       stats := { status := SolverStatus.Converged, ε := some 0,
                  elapsed_time := some 0 } } : SolveResult).x = st0.xhat :=
  ((exitStep_termination_effects probZero params0 [] [] [9] [7] [8] 1 st0 0
      (some 0) 0 false {}
      { x := [3], z := [], y := [], err_z := [],
        stats := { status := SolverStatus.Converged, ε := some 0,
                   elapsed_time := some 0 } }
      (by decide)).1 (by decide)).1

/-- C8: the stopping residual equals
`‖(1/γₖ)·pₖ + (∇ψ(x̂ₖ) − ∇ψ(xₖ))‖∞` with the scaled step and the gradient
difference each formed before the sum, and on a Converged termination the
reported `Stats.ε` is the residual and satisfies `εₖ ≤ ε`. -/
theorem stop_crit_formula_and_converged_bound :
    (∀ (pₖ : vec) (γ : ℚ) (grad_ψhatₖ grad_ψₖ : vec),
      calc_error_stop_crit pₖ γ grad_ψhatₖ grad_ψₖ =
        norm_inf (vadd (smul (1 / γ) pₖ) (vsub grad_ψhatₖ grad_ψₖ))) ∧
    (∀ (prob : Problem) (params : PANOCParams) (y Sig xbuf zbuf errbuf : vec)
      (ε : ℚ) (st : IterState) (k : ℕ) (εopt : Option ℚ) (elapsed : ℚ)
      (stop : Bool) (s : Stats) (r : SolveResult),
      exitStep prob params y Sig xbuf zbuf errbuf ε st k εopt elapsed stop
        s = some r →
      r.stats.status = SolverStatus.Converged →
      r.stats.ε = εopt ∧ fple εopt ε = true) := by
  refine ⟨fun _ _ _ _ => rfl, ?_⟩
  intro prob params y Sig xbuf zbuf errbuf ε st k εopt elapsed stop s r h hst
  simp only [exitStep] at h
  split at h
  · injection h with h
    subst h
    refine ⟨rfl, ?_⟩
    by_contra hfneg
    rw [Bool.not_eq_true] at hfneg
    revert hst
    simp only [hfneg]
    simp only [Bool.false_eq_true, if_false]
    split <;> simp
  · split at h
    · injection h with h
      subst h
      simp at hst
    · split at h
      · injection h with h
        subst h
        simp at hst
      · cases h

/-- C9: the stop flag is consulted only after the stopping-residual tests
(when the Converged/MaxIter/MaxTime group or the non-finiteness branch
fires, the exit is independent of the flag's value); when the flag is set
at the poll and no earlier condition holds, the solver exits with status
Interrupted after writing `x ← x̂ₖ`, `y ← ŷ(x̂ₖ)` and `(ẑ, err_z)` from
`x̂ₖ`, with `Stats.ε` the residual; in particular, when the flag is set
before the first iteration completes, the whole solver returns `x̂₀`,
`ŷ₀`, and `Stats.ε = ε₀`. -/
theorem stop_poll_precedence_and_effect :
    (∀ (prob : Problem) (params : PANOCParams) (y Sig xbuf zbuf errbuf : vec)
      (ε : ℚ) (st : IterState) (k : ℕ) (εopt : Option ℚ) (elapsed : ℚ)
      (s : Stats) (stop₁ stop₂ : Bool),
      ((fple εopt ε || k == params.max_iter ||
          decide (elapsed > params.max_time)) = true ∨
        isFiniteQ εopt = false) →
      exitStep prob params y Sig xbuf zbuf errbuf ε st k εopt elapsed stop₁
          s =
        exitStep prob params y Sig xbuf zbuf errbuf ε st k εopt elapsed stop₂
          s) ∧
    (∀ (prob : Problem) (params : PANOCParams) (y Sig xbuf zbuf errbuf : vec)
      (ε : ℚ) (st : IterState) (k : ℕ) (εopt : Option ℚ) (elapsed : ℚ)
      (s : Stats),
      (fple εopt ε || k == params.max_iter ||
        decide (elapsed > params.max_time)) = false →
      isFiniteQ εopt = true →
      exitStep prob params y Sig xbuf zbuf errbuf ε st k εopt elapsed true
          s =
        some { x := st.xhat, z := (calc_zhat prob st.xhat y Sig).1,
               y := st.yhat, err_z := (calc_zhat prob st.xhat y Sig).2,
               stats := { s with
                          iterations := k, ε := εopt,
                          elapsed_time := some elapsed,
                          status := SolverStatus.Interrupted } }) ∧
    (∀ (prob : Problem) (params : PANOCParams) (sq : ℚ → ℚ)
      (x z y err_z Sig : vec) (ε : ℚ) (elapsedAt : ℕ → ℚ)
      (stopAt : ℕ → Bool) (shrinkFuel lsFuel : ℕ) (x1 : vec) (ψ₀ : ℚ)
      (grad₀ : vec) (L γ σ : ℚ) (sh : ShrinkState) (ε₀ : ℚ),
      bootstrap prob params sq x y Sig = .ok x1 ψ₀ grad₀ L γ σ →
      shrinkLoop prob y Sig x grad₀ ψ₀ 0 (stepAResetCondition params 0)
        shrinkFuel ((initialState prob x y Sig ψ₀ grad₀ L γ σ).toShrink
          { mem := params.lbfgs_mem, pairs := [] }) = some sh →
      ε₀ = calc_error_stop_crit sh.p sh.γ
        (calc_grad_ψ_from_yhat prob sh.xhat sh.yhat) grad₀ →
      fple (some ε₀) ε = false →
      params.max_iter ≠ 0 →
      ¬(elapsedAt 0 > params.max_time) →
      stopAt 0 = true →
      PANOCSolver.solve prob params sq x z y err_z Sig ε elapsedAt stopAt
          shrinkFuel lsFuel =
        some { x := sh.xhat, z := (calc_zhat prob sh.xhat y Sig).1,
               y := sh.yhat, err_z := (calc_zhat prob sh.xhat y Sig).2,
               stats := { status := SolverStatus.Interrupted,
                          ε := some ε₀,
                          elapsed_time := some (elapsedAt 0),
                          iterations := 0 } }) := by
  refine ⟨?_, ?_, ?_⟩
  · intro prob params y Sig xbuf zbuf errbuf ε st k εopt elapsed s stop₁
      stop₂ h
    unfold exitStep
    rcases h with hc | hf
    · simp [hc]
    · cases hb : (fple εopt ε || k == params.max_iter ||
        decide (elapsed > params.max_time))
      · simp [hb, hf]
      · simp [hb]
  · intro prob params y Sig xbuf zbuf errbuf ε st k εopt elapsed s hb hf
    unfold exitStep
    simp [hb, hf]
  · intro prob params sq x z y err_z Sig ε elapsedAt stopAt shrinkFuel lsFuel
      x1 ψ₀ grad₀ L γ σ sh ε₀ hB hSh hE hfple hKmax hT hStop
    rw [solve_ok_eq prob params sq x z y err_z Sig ε elapsedAt stopAt
      shrinkFuel lsFuel x1 ψ₀ grad₀ L γ σ hB]
    rw [loopGo]
    rw [if_pos (by simp [stepACondition] : stepACondition params 0 = true)]
    simp only [initialState_x, initialState_grad, initialState_ψ]
    rw [hSh]
    unfold_let
    have hεval : calc_error_stop_crit ((initialState prob x y Sig ψ₀ grad₀ L
        γ σ).ofShrink sh).p ((initialState prob x y Sig ψ₀ grad₀ L γ
        σ).ofShrink sh).γ (calc_grad_ψ_from_yhat prob ((initialState prob x y
        Sig ψ₀ grad₀ L γ σ).ofShrink sh).xhat ((initialState prob x y Sig ψ₀
        grad₀ L γ σ).ofShrink sh).yhat) ((initialState prob x y Sig ψ₀ grad₀
        L γ σ).ofShrink sh).grad = ε₀ := by
      rw [hE]
      rfl
    have hex : exitStep prob params y Sig x1 z err_z ε
        ((initialState prob x y Sig ψ₀ grad₀ L γ σ).ofShrink sh) 0
        (some ε₀) (elapsedAt 0) (stopAt 0) {} =
        some { x := sh.xhat, z := (calc_zhat prob sh.xhat y Sig).1,
               y := sh.yhat, err_z := (calc_zhat prob sh.xhat y Sig).2,
               stats := { status := SolverStatus.Interrupted,
                          ε := some ε₀,
                          elapsed_time := some (elapsedAt 0),
                          iterations := 0 } } := by
      unfold exitStep
      have h1 : (fple (some ε₀) ε || (0 == params.max_iter) ||
          decide (elapsedAt 0 > params.max_time)) = false := by
        simp [hfple, hT, beq_iff_eq]
        omega
      simp [h1, hStop]
      rfl
    simp only [hεval, hex]

/-- Witness for C9: on `probQuad` with `paramsFD` from `x₀ = [4]`, the
bootstrap gives `L₀ = 1`, `γ₀ = 1/2`, `x̂₀ = [2]`, `ε₀ = 6 > ε = 1`, and
with the stop flag set the solver returns after the first residual test
with status Interrupted and `x = x̂₀`. -/
theorem stop_poll_precedence_and_effect_witness :
    PANOCSolver.solve probQuad paramsFD id [4] [7] [] [8] [] 1
        (fun _ => 0) (fun _ => true) 5 5 =
      some { x := [2], z := [], y := [], err_z := [],
             stats := { status := SolverStatus.Interrupted, ε := some 6,
                        elapsed_time := some 0, iterations := 0 } } :=
  stop_poll_precedence_and_effect.2.2 probQuad paramsFD id [4] [7] [] [8] []
    1 (fun _ => 0) (fun _ => true) 5 5 [6] 8 [4] 1 (1 / 2) (1 / 8)
    ⟨1, 1 / 8, 1 / 2, [2], [-2], 2, [], -8, 4, ⟨10, []⟩⟩ 6
    (by norm_num [bootstrap, lipschitz_h, smul, vadd, vsub, vdiv, vmul, dot,
      squaredNorm, probQuad, paramsFD, calc_grad_ψ, calc_ψ_grad_ψ,
      calc_ψ_yhat, calc_grad_ψ_from_yhat, projecting_difference, project,
      zipWith3, norm2, machineEps, γ_init, σ_init])
    (by norm_num [shrinkLoop, initialState, IterState.toShrink,
      stepAResetCondition, calc_xhat, calc_ψ_yhat, probQuad, paramsFD, vadd,
      vsub, vdiv, vmul, smul, dot, squaredNorm, projecting_difference,
      project, zipWith3])
    (by norm_num [calc_error_stop_crit, calc_grad_ψ_from_yhat, probQuad,
      vadd, vsub, smul, norm_inf, dot])
    (by decide) (by decide) (by decide) rfl

/-- Witness for C7 at a concrete input: `probZero` (`C = [−1, 1]`),
`x = [0]`, `∇ψ = [3]`, `γ = 1`. -/
theorem calc_xhat_fused_form_and_feasible_witness :
    List.Forall₂ (· ≤ ·) probZero.C.lowerbound
      (calc_xhat probZero 1 [0] [3]).1 :=
  (calc_xhat_fused_form_and_feasible probZero 1 [0] [3] rfl rfl rfl
    (List.forall₂_cons.mpr ⟨by norm_num, List.Forall₂.nil⟩)).2.2.1

end pa
